import Mathlib

/-!
Shallow embedding of `flac_lyrics.py`, a one-shot utility that walks a
directory tree, fetches lyrics from the lrclib.net API for each FLAC file,
and writes them as a `.lrc` sidecar file and as an embedded `LYRICS` tag.

The embedding models each source function over an explicit per-file world:
the parsed FLAC tags, the presence of the sidecar, the behavior of the
filesystem during the sidecar write, the behavior of the tag library during
the embedded write, and the HTTP response the network would give for the
file's (artist, title) pair.  User input on stdin is a list of answer
strings; uncaught Python exceptions are the `Except.error` branch.
-/

namespace FlacLyrics

/-- Parsed JSON body of an lrclib.net `/api/get` response: the two optional
string fields the script reads (`data.get("syncedLyrics")`,
`data.get("plainLyrics")`). -/
structure LrcJson where
  syncedLyrics : Option String
  plainLyrics : Option String
deriving Repr, DecidableEq

/-- What `requests.get` produces for one lookup: a transport-level failure
(timeout, DNS, refused connection — any exception from `requests.get`), or a
response with a status code and a body; `none` for the body models a
`response.json()` call that raises (malformed body). -/
inductive HttpResponse where
  | transportFailure : HttpResponse
  | response : Nat → Option LrcJson → HttpResponse
deriving Repr, DecidableEq

/-- Python truthiness of an optional string: `None` and `""` are falsy,
every other string is truthy. -/
def truthy : Option String → Bool
  | none => false
  | some s => !s.isEmpty

/-- Embeds `fetch_lyrics(artist, title)`: the whole body sits in a
`try/except Exception: return None`, so a transport failure or a raising
`response.json()` yields `None`; on status 200 the function returns the
`syncedLyrics` field if truthy, else the `plainLyrics` field if truthy,
else `None`; any other status falls through to the final `return None`. -/
def fetch_lyrics : HttpResponse → Option String
  | .transportFailure => none
  | .response status body =>
    if status = 200 then
      match body with
      | none => none
      | some data =>
        if truthy data.syncedLyrics then data.syncedLyrics
        else if truthy data.plainLyrics then data.plainLyrics
        else none
    else none

/-- The tag fields of a FLAC container as mutagen exposes them to the
script: first value of `artist` and of `title` (absent field ↦ `none`,
matching `audio.get(k, [None])[0]`), and the `LYRICS` field's value
(`some ""` is a present-but-empty field). -/
structure FlacTags where
  artist : Option String
  title : Option String
  lyrics : Option String
deriving Repr, DecidableEq

/-- The test `"LYRICS" in audio` used both for the early-skip `has_tag` and
inside `embed_lyrics_flac`: a mutagen key-containment check, true whenever
the field is present, with no emptiness check on its value. -/
def hasEmbeddedLyrics (tags : FlacTags) : Bool :=
  tags.lyrics.isSome

/-- Per-file world: everything outside the program that one file's
processing can observe.  `flacOpen = none` models `FLAC(path)` raising;
`hasLrc` is `os.path.exists` on the derived `.lrc` path; `lrcWriteError`
says the `open(..., "w")`/`f.write` in `write_lrc_file` would raise an
I/O error; `embedOpenOk` and `embedSaveOk` say whether the re-open and the
`audio.save()` inside `embed_lyrics_flac` succeed; `fetchResult` is the
HTTP response for this file's (artist, title). -/
structure FileWorld where
  path : String
  flacOpen : Option FlacTags
  hasLrc : Bool
  lrcWriteError : Bool
  embedOpenOk : Bool
  embedSaveOk : Bool
  fetchResult : HttpResponse
deriving Repr, DecidableEq

/-- The run configuration parsed by argparse: `--force`, `--prompt`,
`--dry-run`. -/
structure Config where
  force : Bool
  prompt : Bool
  dryRun : Bool
deriving Repr, DecidableEq

/-- The per-file status strings `process_file` returns. -/
inductive Outcome where
  | error
  | missing_tags
  | skipped_existing
  | not_found
  | skipped_prompt
  | dry_run
  | updated
deriving Repr, DecidableEq

/-- An uncaught Python exception escaping `process_file`: an I/O error from
the unprotected sidecar write, or `EOFError` from `input()` on an exhausted
stdin. -/
inductive ExnKind where
  | sidecarWriteFailed
  | eofOnInput
deriving Repr, DecidableEq

/-- Observable side effects of processing: how many lyrics lookups were
issued, how many prompts were shown (`input()` calls), how many sidecar
files were opened for writing, and how many `audio.save()` calls ran. -/
structure Effects where
  fetchCalls : Nat
  promptsShown : Nat
  sidecarOpens : Nat
  flacSaves : Nat
deriving Repr, DecidableEq

/-- The effects of a path that touched nothing. -/
def noEffects : Effects :=
  { fetchCalls := 0, promptsShown := 0, sidecarOpens := 0, flacSaves := 0 }

/-- Pointwise sum of effect counters, for aggregating a run. -/
def addEffects (a b : Effects) : Effects :=
  { fetchCalls := a.fetchCalls + b.fetchCalls
    promptsShown := a.promptsShown + b.promptsShown
    sidecarOpens := a.sidecarOpens + b.sidecarOpens
    flacSaves := a.flacSaves + b.flacSaves }

/-- Embeds `write_lrc_file(music_file, lyrics, force)`.  The function has no
`try/except`: when the sidecar exists and `force` is false it returns
`False` without touching the file; otherwise it opens the sidecar for
writing, and an I/O error raised there escapes to the caller
(`Except.error`).  The `Nat` counts actual open-for-write operations. -/
def write_lrc_file (w : FileWorld) (force : Bool) : Except Unit (Bool × Nat) :=
  if w.hasLrc && !force then .ok (false, 0)
  else if w.lrcWriteError then .error ()
  else .ok (true, 1)

/-- Embeds `embed_lyrics_flac(music_file, lyrics, force)`.  The whole body
is wrapped in `try/except Exception: return False`, so a failing re-open or
a failing `audio.save()` yields `False` rather than an exception.  The test
before the save is `"LYRICS" in audio and not force`.  The `Nat` counts
`audio.save()` calls that were started. -/
def embed_lyrics_flac (w : FileWorld) (force : Bool) : Bool × Nat :=
  match w.flacOpen with
  | none => (false, 0)
  | some tags =>
    if !w.embedOpenOk then (false, 0)
    else if hasEmbeddedLyrics tags && !force then (false, 0)
    else if w.embedSaveOk then (true, 1)
    else (false, 1)

/-- The answer the prompt loop extracts from the user. -/
inductive PromptAnswer where
  | all
  | yes
  | no
deriving Repr, DecidableEq

/-- The whitespace characters Python's `str.strip()` removes (the ASCII
ones; the answers at stake are ASCII). -/
def isStripSpace (c : Char) : Bool :=
  c = ' ' || c = '\t' || c = '\n' || c = '\r' || c = '\x0b' || c = '\x0c'

/-- Drop the leading whitespace of a character list. -/
def dropSpace : List Char → List Char
  | [] => []
  | c :: cs => if isStripSpace c then dropSpace cs else c :: cs

/-- Lowercase every character (ASCII case mapping, which is all
`.lower()` needs on the answers at stake). -/
def lowerAll : List Char → List Char
  | [] => []
  | c :: cs => c.toLower :: lowerAll cs

/-- The `.strip().lower()` normalization applied to each raw answer:
strip leading and trailing whitespace, then lowercase. -/
def normalize (s : String) : String :=
  ⟨lowerAll (dropSpace ((dropSpace s.data).reverse)).reverse⟩

/-- Embeds the `while True` prompt loop of `process_file` over a finite
stdin: the first answer normalizing to `"a"`, `"y"` or `"n"` (checked in
that source order) is returned together with the remaining input and the
number of `input()` calls made; any other answer prints a hint and loops;
an exhausted stdin makes `input()` raise `EOFError`. -/
def promptLoop : List String → Except ExnKind (PromptAnswer × List String × Nat)
  | [] => .error .eofOnInput
  | ans :: rest =>
    let a := normalize ans
    if a = "a" then .ok (.all, rest, 1)
    else if a = "y" then .ok (.yes, rest, 1)
    else if a = "n" then .ok (.no, rest, 1)
    else
      match promptLoop rest with
      | .ok (r, rem, k) => .ok (r, rem, k + 1)
      | .error e => .error e

/-- Step-indexed semantics of the same `while True` loop over an unbounded
stdin stream `f`, reading from position `i`: `none` means the loop has not
returned within `fuel` iterations. -/
def promptLoopFuel : Nat → (Nat → String) → Nat → Option (PromptAnswer × Nat)
  | 0, _, _ => none
  | fuel + 1, f, i =>
    let a := normalize (f i)
    if a = "a" then some (.all, i + 1)
    else if a = "y" then some (.yes, i + 1)
    else if a = "n" then some (.no, i + 1)
    else promptLoopFuel fuel f (i + 1)

/-- The tail of `process_file` after the prompt (lines 137-146): the
dry-run early return, then the two write attempts and the
either-succeeded classification.  `fetches` and `shown` carry the effect
counts accumulated before this point. -/
def writeStage (w : FileWorld) (cfg : Config) (yesToAll : Bool)
    (input : List String) (fetches shown : Nat) :
    Except ExnKind (Outcome × Bool × List String × Effects) :=
  if cfg.dryRun then
    .ok (.dry_run, yesToAll, input,
      { fetchCalls := fetches, promptsShown := shown, sidecarOpens := 0, flacSaves := 0 })
  else
    match write_lrc_file w cfg.force with
    | .error _ => .error .sidecarWriteFailed
    | .ok (wrote_file, opens) =>
      let et := embed_lyrics_flac w cfg.force
      .ok (if wrote_file || et.1 then .updated else .skipped_existing,
        yesToAll, input,
        { fetchCalls := fetches, promptsShown := shown, sidecarOpens := opens,
          flacSaves := et.2 })

/-- Embeds `process_file(path, args, yes_to_all)`.  Returns the outcome,
the yes-to-all flag after the file (the mutation of `yes_to_all[0]`), the
stdin not yet consumed, and the effect counters; `Except.error` is an
uncaught exception aborting the file. -/
def process_file (w : FileWorld) (cfg : Config) (yesToAll : Bool)
    (input : List String) :
    Except ExnKind (Outcome × Bool × List String × Effects) :=
  match w.flacOpen with
  | none => .ok (.error, yesToAll, input, noEffects)
  | some tags =>
    if !truthy tags.artist || !truthy tags.title then
      .ok (.missing_tags, yesToAll, input, noEffects)
    else if (w.hasLrc || hasEmbeddedLyrics tags) && !cfg.force && !cfg.prompt then
      .ok (.skipped_existing, yesToAll, input, noEffects)
    else
      match fetch_lyrics w.fetchResult with
      | none => .ok (.not_found, yesToAll, input, { noEffects with fetchCalls := 1 })
      | some _ =>
        if cfg.prompt && !yesToAll then
          match promptLoop input with
          | .error e => .error e
          | .ok (ans, rest, shown) =>
            match ans with
            | .no => .ok (.skipped_prompt, yesToAll, rest,
                { fetchCalls := 1, promptsShown := shown, sidecarOpens := 0, flacSaves := 0 })
            | .yes => writeStage w cfg yesToAll rest 1 shown
            | .all => writeStage w cfg true rest 1 shown
        else writeStage w cfg yesToAll input 1 0

/-- Projection to just the per-file status, for statements that compare
runs whose effect counters differ. -/
def outcomeOf (r : Except ExnKind (Outcome × Bool × List String × Effects)) :
    Except ExnKind Outcome :=
  r.map (fun t => t.1)

/-- The inner loop of `main`: process each walked file in order, threading
the `yes_to_all` cell and stdin, appending `(path, outcome)` to the log.
An exception from `process_file` is uncaught in `main` and aborts the whole
traversal. -/
def runFiles (cfg : Config) :
    List FileWorld → Bool → List String →
    Except ExnKind (List (String × Outcome) × Bool × List String × Effects)
  | [], y, input => .ok ([], y, input, noEffects)
  | w :: ws, y, input =>
    match process_file w cfg y input with
    | .error e => .error e
    | .ok (out, y', input', fx) =>
      match runFiles cfg ws y' input' with
      | .error e => .error e
      | .ok (log, y'', input'', fx') =>
        .ok ((w.path, out) :: log, y'', input'', addEffects fx fx')

/-- The world `main` sees: whether the directory argument names an existing
traversable directory, and the files a walk of it would enumerate. -/
structure RunWorld where
  rootExists : Bool
  entries : List FileWorld
deriving Repr, DecidableEq

/-- Embeds `os.walk(args.directory)` as the script consumes it.  `os.walk`
is called with the default `onerror=None`, so the scandir error on a
non-existent or non-traversable root is swallowed and the walk yields no
triples at all; no exception reaches `main`. -/
def osWalk (rw : RunWorld) : List FileWorld :=
  if rw.rootExists then rw.entries else []

/-- The extension filter `f.lower().endswith(".flac")`. -/
def isFlacName (p : String) : Bool :=
  List.isSuffixOf ".flac".data (lowerAll p.data)

/-- What one invocation leaves behind: the process exit code, the lines on
stderr (empty unless an uncaught exception printed a traceback), and the
collected per-file log. -/
structure MainResult where
  exitCode : Nat
  stderrLines : List String
  log : List (String × Outcome)
deriving Repr, DecidableEq

/-- Embeds `main()` after argument parsing: walk the root, filter by the
`.flac` extension, process every file in order, and exit.  A normal run
ends with exit code 0 and nothing on stderr; an uncaught exception makes
the interpreter print a traceback and exit with code 1. -/
def main (rw : RunWorld) (cfg : Config) (input : List String) : MainResult :=
  match runFiles cfg ((osWalk rw).filter (fun w => isFlacName w.path)) false input with
  | .ok (log, _, _, _) => { exitCode := 0, stderrLines := [], log := log }
  | .error _ => { exitCode := 1, stderrLines := ["Traceback (most recent call last): ..."], log := [] }

/-- A well-tagged file with no existing lyrics anywhere, whose lookup
succeeds with synced lyrics; used to instantiate theorems. -/
def sampleTags : FlacTags :=
  { artist := some "A", title := some "T", lyrics := none }

/-- A 200 response carrying synced lyrics. -/
def sampleResponse : HttpResponse :=
  .response 200 (some { syncedLyrics := some "[00:01.00]La la", plainLyrics := none })

/-- A concrete file world where every external interaction succeeds. -/
def sampleWorld : FileWorld :=
  { path := "album/song.flac", flacOpen := some sampleTags, hasLrc := false,
    lrcWriteError := false, embedOpenOk := true, embedSaveOk := true,
    fetchResult := sampleResponse }

/-- The same world except that opening the sidecar for writing raises an
I/O error (for example a read-only music folder or a full disk). -/
def crashWorld : FileWorld :=
  { sampleWorld with lrcWriteError := true }

/-- The same world except that the FLAC carries a present-but-empty
`LYRICS` field. -/
def emptyLyricsWorld : FileWorld :=
  { sampleWorld with flacOpen := some { sampleTags with lyrics := some "" } }

/-- Defaults: no `--force`, no `--prompt`, no `--dry-run`. -/
def plainConfig : Config :=
  { force := false, prompt := false, dryRun := false }

/-- Prompt mode only. -/
def promptConfig : Config :=
  { force := false, prompt := true, dryRun := false }

/-!  Helper lemmas shared by the claim theorems. -/

/-- On a dry run the write stage returns `dry_run` at once, touching
neither write target. -/
theorem writeStage_dryRun (w : FileWorld) (cfg : Config) (y : Bool)
    (input : List String) (f sh : Nat) (hd : cfg.dryRun = true) :
    writeStage w cfg y input f sh =
      .ok (.dry_run, y, input,
        { fetchCalls := f, promptsShown := sh, sidecarOpens := 0, flacSaves := 0 }) := by
  simp [writeStage, hd]

/-- Whatever the write stage returns, it does not mutate the yes-to-all
flag, consumes no input, and adds no prompts beyond those it was passed. -/
theorem writeStage_preserves (w : FileWorld) (cfg : Config) (y : Bool)
    (input : List String) (f sh : Nat) (out : Outcome) (y' : Bool)
    (rem : List String) (fx : Effects)
    (h : writeStage w cfg y input f sh = .ok (out, y', rem, fx)) :
    y' = y ∧ rem = input ∧ fx.promptsShown = sh := by
  unfold writeStage at h
  split at h
  · cases h; exact ⟨rfl, rfl, rfl⟩
  · cases hw : write_lrc_file w cfg.force with
    | error e => rw [hw] at h; cases h
    | ok p => rw [hw] at h; cases h; exact ⟨rfl, rfl, rfl⟩

/-- With the yes-to-all flag already set, processing a file never prompts,
never consumes stdin, and never clears the flag. -/
theorem process_file_yes_all (w : FileWorld) (cfg : Config) (input : List String)
    (out : Outcome) (y' : Bool) (rem : List String) (fx : Effects)
    (h : process_file w cfg true input = .ok (out, y', rem, fx)) :
    y' = true ∧ rem = input ∧ fx.promptsShown = 0 := by
  cases hfo : w.flacOpen with
  | none =>
    have hred : process_file w cfg true input = .ok (.error, true, input, noEffects) := by
      simp [process_file, hfo]
    rw [hred] at h
    cases h
    exact ⟨rfl, rfl, rfl⟩
  | some tags =>
    by_cases h1 : (!truthy tags.artist || !truthy tags.title) = true
    · have hred : process_file w cfg true input = .ok (.missing_tags, true, input, noEffects) := by
        simp [process_file, hfo, h1]
      rw [hred] at h
      cases h
      exact ⟨rfl, rfl, rfl⟩
    · by_cases h2 : ((w.hasLrc || hasEmbeddedLyrics tags) && !cfg.force && !cfg.prompt) = true
      · have hred : process_file w cfg true input =
            .ok (.skipped_existing, true, input, noEffects) := by
          simp [process_file, hfo, h1, h2]
        rw [hred] at h
        cases h
        exact ⟨rfl, rfl, rfl⟩
      · cases hfl : fetch_lyrics w.fetchResult with
        | none =>
          have hred : process_file w cfg true input =
              .ok (.not_found, true, input, { noEffects with fetchCalls := 1 }) := by
            simp [process_file, hfo, h1, h2, hfl]
          rw [hred] at h
          cases h
          exact ⟨rfl, rfl, rfl⟩
        | some lyr =>
          have hred : process_file w cfg true input = writeStage w cfg true input 1 0 := by
            simp [process_file, hfo, h1, h2, hfl]
          rw [hred] at h
          exact writeStage_preserves _ _ _ _ _ _ _ _ _ _ h

/-- Running any tail of the traversal with the yes-to-all flag set shows no
prompt, reads no stdin, and keeps the flag set. -/
theorem runFiles_yes_all (cfg : Config) (fs : List FileWorld) (input : List String)
    (log : List (String × Outcome)) (y' : Bool) (rem : List String) (fx : Effects)
    (h : runFiles cfg fs true input = .ok (log, y', rem, fx)) :
    y' = true ∧ rem = input ∧ fx.promptsShown = 0 := by
  induction fs generalizing input log y' rem fx with
  | nil =>
    simp only [runFiles] at h
    cases h
    exact ⟨rfl, rfl, rfl⟩
  | cons w ws ih =>
    simp only [runFiles] at h
    cases hp : process_file w cfg true input with
    | error e => rw [hp] at h; cases h
    | ok quad =>
      obtain ⟨out1, y1, in1, fx1⟩ := quad
      obtain ⟨hy1, hin1, hfx1⟩ := process_file_yes_all w cfg input out1 y1 in1 fx1 hp
      rw [hy1, hin1] at hp
      cases hr : runFiles cfg ws true input with
      | error e =>
        simp only [hp, hr] at h
        cases h
      | ok quad2 =>
        obtain ⟨log2, y2, in2, fx2⟩ := quad2
        obtain ⟨hy2, hin2, hfx2⟩ := ih input log2 y2 in2 fx2 hr
        simp only [hp, hr] at h
        cases h
        refine ⟨hy2, hin2, ?_⟩
        simp [addEffects, hfx1, hfx2]

/-- The status the write stage produces does not depend on the yes-to-all
flag, the remaining stdin, or the effect counters carried into it. -/
theorem writeStage_outcome_eq (w : FileWorld) (cfg : Config)
    (y1 y2 : Bool) (i1 i2 : List String) (f1 f2 s1 s2 : Nat) :
    outcomeOf (writeStage w cfg y1 i1 f1 s1) =
      outcomeOf (writeStage w cfg y2 i2 f2 s2) := by
  unfold writeStage
  split
  · rfl
  · cases hw : write_lrc_file w cfg.force with
    | error e => rfl
    | ok p => rfl

/-- Under well-formed tags, a found lyric, a passed (or inactive) prompt and
no early skip, `process_file` is exactly the write stage with one fetch and
no prompt shown. -/
theorem process_file_reaches_writeStage (w : FileWorld) (tags : FlacTags)
    (cfg : Config) (y : Bool) (input : List String) (lyr : String)
    (hopen : w.flacOpen = some tags)
    (ha : truthy tags.artist = true) (ht : truthy tags.title = true)
    (hskip : cfg.force = true ∨ cfg.prompt = true ∨
      (w.hasLrc = false ∧ hasEmbeddedLyrics tags = false))
    (hfetch : fetch_lyrics w.fetchResult = some lyr)
    (hpass : cfg.prompt = false ∨ y = true) :
    process_file w cfg y input = writeStage w cfg y input 1 0 := by
  have hskip' : ((w.hasLrc || hasEmbeddedLyrics tags) && !cfg.force && !cfg.prompt) = false := by
    rcases hskip with h | h | ⟨h1, h2⟩
    · simp [h]
    · simp [h]
    · simp [h1, h2]
  have hpass' : (cfg.prompt && !y) = false := by
    rcases hpass with h | h <;> simp [h]
  simp [process_file, hopen, ha, ht, hskip', hfetch, hpass']

/-- C1 counterexample: with a non-existent root directory the program does
not fail — `os.walk` yields nothing, so the run processes no files, prints
an empty summary, writes nothing to stderr and exits with code 0, contrary
to the claimed clear error message and non-zero exit. -/
theorem C1_counterexample :
    main { rootExists := false, entries := [sampleWorld] } plainConfig [] =
      { exitCode := 0, stderrLines := [], log := [] } := rfl

/-- C1 (amended): if the root directory does not exist or is not
traversable, no files are processed — but no `InvalidDirectory` error is
raised: `os.walk` silently yields nothing and the program exits normally
with code 0, an empty summary and nothing on stderr. -/
theorem C1_amended_missing_root_silent (entries : List FileWorld)
    (cfg : Config) (input : List String) :
    main { rootExists := false, entries := entries } cfg input =
      { exitCode := 0, stderrLines := [], log := [] } := by
  simp [main, osWalk, runFiles]

/-- C3 counterexample: for a file whose `LYRICS` field is present but
empty, the code's presence test `"LYRICS" in audio` is true (not false as
claimed), the embedded write with `force=false` reports "not written"
without saving, and the early skip even fires, returning
`skipped_existing`. -/
theorem C3_counterexample :
    hasEmbeddedLyrics { artist := some "A", title := some "T", lyrics := some "" } = true
    ∧ embed_lyrics_flac emptyLyricsWorld false = (false, 0)
    ∧ process_file emptyLyricsWorld plainConfig false [] =
        .ok (.skipped_existing, false, [], noEffects) :=
  ⟨rfl, rfl, rfl⟩

/-- C3 (amended): the presence test used by the tag reader and by the
embedded-write gate is a pure key-presence check with no emptiness test:
for every file whose `LYRICS` field is present but empty,
`hasEmbeddedLyrics` is true, and the embedded write with `force=false`
reports "not written" without calling `save`. -/
theorem C3_amended_presence_only (tags : FlacTags) (w : FileWorld)
    (hl : tags.lyrics = some "")
    (hopen : w.flacOpen = some tags) (hok : w.embedOpenOk = true) :
    hasEmbeddedLyrics tags = true ∧ embed_lyrics_flac w false = (false, 0) := by
  constructor
  · simp [hasEmbeddedLyrics, hl]
  · simp [embed_lyrics_flac, hopen, hok, hasEmbeddedLyrics, hl]

/-- Witness for the amended C3, at a concrete file with `LYRICS = ""`. -/
theorem C3_amended_presence_only_witness :
    hasEmbeddedLyrics { sampleTags with lyrics := some "" } = true
    ∧ embed_lyrics_flac emptyLyricsWorld false = (false, 0) :=
  C3_amended_presence_only { sampleTags with lyrics := some "" } emptyLyricsWorld
    rfl rfl rfl

/-- C4: with `prompt=true` the early existing-content skip is bypassed even
without `force`: a file that already has a sidecar or an embedded tag still
fetches lyrics (one lookup is issued) and asks the user; answering `n`
yields `skipped_prompt`. -/
theorem C4_prompt_bypasses_early_skip (w : FileWorld) (tags : FlacTags)
    (cfg : Config) (lyr s : String) (rest : List String)
    (hopen : w.flacOpen = some tags)
    (ha : truthy tags.artist = true) (ht : truthy tags.title = true)
    (hex : w.hasLrc = true ∨ hasEmbeddedLyrics tags = true)
    (hf : cfg.force = false) (hp : cfg.prompt = true)
    (hfetch : fetch_lyrics w.fetchResult = some lyr)
    (hn : normalize s = "n") :
    process_file w cfg false (s :: rest) =
      .ok (.skipped_prompt, false, rest,
        { fetchCalls := 1, promptsShown := 1, sidecarOpens := 0, flacSaves := 0 }) := by
  have hloop : promptLoop (s :: rest) = .ok (.no, rest, 1) := by
    simp [promptLoop, hn]
  simp [process_file, hopen, ha, ht, hp, hfetch, hloop]

/-- Witness for C4: a file that already has a sidecar, prompt mode on,
user answers `n`. -/
theorem C4_prompt_bypasses_early_skip_witness :
    process_file { sampleWorld with hasLrc := true } promptConfig false ["n"] =
      .ok (.skipped_prompt, false, [],
        { fetchCalls := 1, promptsShown := 1, sidecarOpens := 0, flacSaves := 0 }) :=
  C4_prompt_bypasses_early_skip { sampleWorld with hasLrc := true } sampleTags
    promptConfig "[00:01.00]La la" "n" [] rfl rfl rfl (Or.inl rfl) rfl rfl rfl
    (by decide)

/-- C5: the fetcher returns the synced-lyrics field on a 200 response when
it is present and non-empty; otherwise the plain-lyrics field when present
and non-empty; and `None` in every other case — non-success status, neither
field truthy, malformed body, or a transport failure — never an
exception (its return type is total). -/
theorem C5_fetch_policy :
    (∀ d s, d.syncedLyrics = some s → s ≠ "" →
      fetch_lyrics (.response 200 (some d)) = some s)
    ∧ (∀ d s, truthy d.syncedLyrics = false → d.plainLyrics = some s → s ≠ "" →
      fetch_lyrics (.response 200 (some d)) = some s)
    ∧ (∀ status body, status ≠ 200 → fetch_lyrics (.response status body) = none)
    ∧ (∀ d, truthy d.syncedLyrics = false → truthy d.plainLyrics = false →
      fetch_lyrics (.response 200 (some d)) = none)
    ∧ (∀ status, fetch_lyrics (.response status none) = none)
    ∧ fetch_lyrics .transportFailure = none := by
  have h200 : ∀ d : LrcJson,
      fetch_lyrics (.response 200 (some d)) =
        if truthy d.syncedLyrics then d.syncedLyrics
        else if truthy d.plainLyrics then d.plainLyrics
        else none := by
    intro d; simp [fetch_lyrics]
  refine ⟨?_, ?_, ?_, ?_, ?_, rfl⟩
  · intro d s h hne
    have hne' : s.isEmpty = false := by
      cases he : s.isEmpty
      · rfl
      · exact absurd ((String.isEmpty_iff s).mp he) hne
    have hs2 : truthy (some s) = true := by simp [truthy, hne']
    simp [h200, h, hs2]
  · intro d s hs h hne
    have hne' : s.isEmpty = false := by
      cases he : s.isEmpty
      · rfl
      · exact absurd ((String.isEmpty_iff s).mp he) hne
    have hp2 : truthy (some s) = true := by simp [truthy, hne']
    simp [h200, hs, h, hp2]
  · intro status body hst
    simp [fetch_lyrics, hst]
  · intro d h1 h2
    simp [h200, h1, h2]
  · intro status
    simp [fetch_lyrics]

/-- Witness for C5: synced lyrics win on a 200; plain lyrics are the
fallback; a 404 is not-found. -/
theorem C5_fetch_policy_witness :
    fetch_lyrics (.response 200 (some { syncedLyrics := some "X", plainLyrics := none }))
      = some "X"
    ∧ fetch_lyrics (.response 200 (some { syncedLyrics := none, plainLyrics := some "P" }))
      = some "P"
    ∧ fetch_lyrics (.response 404 none) = none :=
  ⟨C5_fetch_policy.1 _ "X" rfl (by decide),
   C5_fetch_policy.2.1 _ "P" rfl rfl (by decide),
   C5_fetch_policy.2.2.1 404 none (by decide)⟩

/-- C6: a file with usable tags whose sidecar or embedded tag already
exists is skipped under `force=false, prompt=false` with outcome
`skipped_existing` and zero effects — in particular no network call. -/
theorem C6_early_skip_no_fetch (w : FileWorld) (tags : FlacTags)
    (cfg : Config) (y : Bool) (input : List String)
    (hopen : w.flacOpen = some tags)
    (ha : truthy tags.artist = true) (ht : truthy tags.title = true)
    (hex : w.hasLrc = true ∨ hasEmbeddedLyrics tags = true)
    (hf : cfg.force = false) (hp : cfg.prompt = false) :
    process_file w cfg y input = .ok (.skipped_existing, y, input, noEffects)
    ∧ noEffects.fetchCalls = 0 := by
  constructor
  · have hex' : (w.hasLrc || hasEmbeddedLyrics tags) = true := by
      rcases hex with h | h
      · simp [h]
      · simp [h]
    simp [process_file, hopen, ha, ht, hex', hf, hp]
  · rfl

/-- Witness for C6: a file with an existing sidecar under default flags. -/
theorem C6_early_skip_no_fetch_witness :
    process_file { sampleWorld with hasLrc := true } plainConfig false [] =
      .ok (.skipped_existing, false, [], noEffects)
    ∧ noEffects.fetchCalls = 0 :=
  C6_early_skip_no_fetch { sampleWorld with hasLrc := true } sampleTags
    plainConfig false [] rfl rfl rfl (Or.inl rfl) rfl rfl

/-- C2 counterexample: an I/O error during the sidecar write is NOT caught
inside the writer — `write_lrc_file` has no try/except.  On a concrete file
whose sidecar open raises, the error escapes the writer, aborts the file's
processing before the embedded write, and crashes the whole run (traceback,
exit code 1, empty summary). -/
theorem C2_counterexample :
    write_lrc_file crashWorld false = .error ()
    ∧ process_file crashWorld plainConfig false [] = .error .sidecarWriteFailed
    ∧ main { rootExists := true, entries := [crashWorld] } plainConfig [] =
        { exitCode := 1, stderrLines := ["Traceback (most recent call last): ..."],
          log := [] } :=
  ⟨rfl, rfl, rfl⟩

/-- C2 (amended): a persistence failure during the sidecar write is not
caught: whenever the writer reaches the actual write (no existing-sidecar
skip) and the filesystem raises, the exception escapes `write_lrc_file`,
`process_file` returns it instead of an outcome (so the embedded write is
never attempted), and it aborts the whole traversal.  Only the embedded
write catches its persistence failures, contributing "not written" for that
target. -/
theorem C2_amended_sidecar_error_uncaught :
    (∀ w force, w.lrcWriteError = true → (w.hasLrc = false ∨ force = true) →
      write_lrc_file w force = .error ())
    ∧ (∀ w force, w.embedSaveOk = false → (embed_lyrics_flac w force).1 = false)
    ∧ (∀ w tags cfg y input lyr,
        w.flacOpen = some tags → truthy tags.artist = true → truthy tags.title = true →
        (cfg.force = true ∨ cfg.prompt = true ∨
          (w.hasLrc = false ∧ hasEmbeddedLyrics tags = false)) →
        fetch_lyrics w.fetchResult = some lyr → (cfg.prompt = false ∨ y = true) →
        cfg.dryRun = false → w.lrcWriteError = true → (w.hasLrc = false ∨ cfg.force = true) →
        process_file w cfg y input = .error .sidecarWriteFailed)
    ∧ (∀ cfg w ws y input e, process_file w cfg y input = .error e →
        runFiles cfg (w :: ws) y input = .error e) := by
  refine ⟨?_, ?_, ?_, ?_⟩
  · intro w force h1 h2
    have hcond : (w.hasLrc && !force) = false := by
      rcases h2 with h | h
      · simp [h]
      · simp [h]
    simp [write_lrc_file, hcond, h1]
  · intro w force h
    cases hfo : w.flacOpen with
    | none => simp [embed_lyrics_flac, hfo]
    | some tags =>
      simp only [embed_lyrics_flac, hfo, h]
      split
      · rfl
      · split
        · rfl
        · rfl
  · intro w tags cfg y input lyr hopen ha ht hskip hfetch hpass hd hio hreach
    rw [process_file_reaches_writeStage w tags cfg y input lyr hopen ha ht hskip hfetch hpass]
    have hcond : (w.hasLrc && !cfg.force) = false := by
      rcases hreach with h | h
      · simp [h]
      · simp [h]
    simp [writeStage, hd, write_lrc_file, hcond, hio]
  · intro cfg w ws y input e h
    simp [runFiles, h]

/-- Witness for the amended C2, at the concrete crashing world. -/
theorem C2_amended_sidecar_error_uncaught_witness :
    write_lrc_file crashWorld false = .error ()
    ∧ (embed_lyrics_flac { sampleWorld with embedSaveOk := false } false).1 = false
    ∧ process_file crashWorld plainConfig false [] = .error .sidecarWriteFailed
    ∧ runFiles plainConfig [crashWorld] false [] = .error .sidecarWriteFailed :=
  ⟨C2_amended_sidecar_error_uncaught.1 crashWorld false rfl (Or.inl rfl),
   C2_amended_sidecar_error_uncaught.2.1 { sampleWorld with embedSaveOk := false } false rfl,
   C2_amended_sidecar_error_uncaught.2.2.1 crashWorld sampleTags plainConfig false []
     "[00:01.00]La la" rfl rfl rfl (Or.inr (Or.inr ⟨rfl, rfl⟩)) rfl (Or.inl rfl) rfl rfl
     (Or.inl rfl),
   C2_amended_sidecar_error_uncaught.2.2.2 plainConfig crashWorld [] false []
     .sidecarWriteFailed rfl⟩

/-- C9 counterexample: on a concrete file where the embedded write, taken
alone, would succeed, an I/O error in the sidecar write aborts processing
with an uncaught exception: the embedded target is never attempted and no
outcome — in particular not `updated` — is produced, so the two targets are
not attempted independently. -/
theorem C9_counterexample :
    (embed_lyrics_flac crashWorld false).1 = true
    ∧ process_file crashWorld plainConfig false [] = .error .sidecarWriteFailed :=
  ⟨rfl, rfl⟩

/-- C9 (amended): provided the sidecar write raises no I/O error, both
write targets are attempted, the outcome is `updated` if either write
reports success and `skipped_existing` if neither does, and the two writes
are independent: each function reads only its own target's state.  If the
sidecar write raises, the exception propagates before the embedded write is
attempted. -/
theorem C9_amended_independent_writes :
    (∀ w tags cfg y input lyr,
      w.flacOpen = some tags → truthy tags.artist = true → truthy tags.title = true →
      (cfg.force = true ∨ cfg.prompt = true ∨
        (w.hasLrc = false ∧ hasEmbeddedLyrics tags = false)) →
      fetch_lyrics w.fetchResult = some lyr → (cfg.prompt = false ∨ y = true) →
      cfg.dryRun = false → w.lrcWriteError = false →
      process_file w cfg y input =
        .ok ((if (!(w.hasLrc && !cfg.force)) || (embed_lyrics_flac w cfg.force).1
            then .updated else .skipped_existing),
          y, input,
          { fetchCalls := 1, promptsShown := 0,
            sidecarOpens := if w.hasLrc && !cfg.force then 0 else 1,
            flacSaves := (embed_lyrics_flac w cfg.force).2 }))
    ∧ (∀ w force b1 b2,
        embed_lyrics_flac { w with hasLrc := b1, lrcWriteError := b2 } force =
          embed_lyrics_flac w force)
    ∧ (∀ w force t b1 b2,
        write_lrc_file { w with flacOpen := t, embedOpenOk := b1, embedSaveOk := b2 } force =
          write_lrc_file w force) := by
  refine ⟨?_, ?_, ?_⟩
  · intro w tags cfg y input lyr hopen ha ht hskip hfetch hpass hd hio
    rw [process_file_reaches_writeStage w tags cfg y input lyr hopen ha ht hskip hfetch hpass]
    by_cases hc : (w.hasLrc && !cfg.force) = true
    · simp [writeStage, hd, write_lrc_file, hc, hio]
    · have hc' : (w.hasLrc && !cfg.force) = false := by
        cases h : (w.hasLrc && !cfg.force)
        · rfl
        · exact absurd h hc
      simp [writeStage, hd, write_lrc_file, hc', hio]
  · intro w force b1 b2
    rfl
  · intro w force t b1 b2
    rfl

/-- Witness for the amended C9: a fresh file where both writes succeed. -/
theorem C9_amended_independent_writes_witness :
    process_file sampleWorld plainConfig false [] =
      .ok ((if (!(sampleWorld.hasLrc && !plainConfig.force))
            || (embed_lyrics_flac sampleWorld plainConfig.force).1
          then .updated else .skipped_existing),
        false, [],
        { fetchCalls := 1, promptsShown := 0,
          sidecarOpens := if sampleWorld.hasLrc && !plainConfig.force then 0 else 1,
          flacSaves := (embed_lyrics_flac sampleWorld plainConfig.force).2 }) :=
  C9_amended_independent_writes.1 sampleWorld sampleTags plainConfig false []
    "[00:01.00]La la" rfl rfl rfl (Or.inr (Or.inr ⟨rfl, rfl⟩)) rfl (Or.inl rfl) rfl rfl

/-- C8: with `dryRun=true` no run of `process_file` that returns an outcome
opens a sidecar for writing or calls `save` — and `updated` is impossible;
moreover, whenever lyrics are found and the file reaches past the prompt
(prompt off or already confirmed, or the user answers `y`), the outcome is
exactly `dry_run`. -/
theorem C8_dry_run_no_writes :
    (∀ w cfg y input out y' rem fx, cfg.dryRun = true →
      process_file w cfg y input = .ok (out, y', rem, fx) →
      fx.sidecarOpens = 0 ∧ fx.flacSaves = 0 ∧ out ≠ .updated)
    ∧ (∀ w tags cfg y input lyr, cfg.dryRun = true →
      w.flacOpen = some tags → truthy tags.artist = true → truthy tags.title = true →
      (cfg.force = true ∨ cfg.prompt = true ∨
        (w.hasLrc = false ∧ hasEmbeddedLyrics tags = false)) →
      fetch_lyrics w.fetchResult = some lyr → (cfg.prompt = false ∨ y = true) →
      process_file w cfg y input =
        .ok (.dry_run, y, input,
          { fetchCalls := 1, promptsShown := 0, sidecarOpens := 0, flacSaves := 0 }))
    ∧ (∀ w tags cfg lyr s rest, cfg.dryRun = true →
      w.flacOpen = some tags → truthy tags.artist = true → truthy tags.title = true →
      cfg.prompt = true → fetch_lyrics w.fetchResult = some lyr → normalize s = "y" →
      process_file w cfg false (s :: rest) =
        .ok (.dry_run, false, rest,
          { fetchCalls := 1, promptsShown := 1, sidecarOpens := 0, flacSaves := 0 })) := by
  refine ⟨?_, ?_, ?_⟩
  · intro w cfg y input out y' rem fx hd hproc
    obtain ⟨pa, fo, hl, le, eo, es, fr⟩ := w
    cases fo with
    | none =>
      simp only [process_file] at hproc
      cases hproc
      exact ⟨rfl, rfl, by decide⟩
    | some tags =>
      simp only [process_file] at hproc
      repeat' split at hproc
      all_goals
        first
          | (rw [writeStage_dryRun _ _ _ _ _ _ hd] at hproc
             cases hproc
             exact ⟨rfl, rfl, by decide⟩)
          | (cases hproc; exact ⟨rfl, rfl, by decide⟩)
          | cases hproc
  · intro w tags cfg y input lyr hd hopen ha ht hskip hfetch hpass
    rw [process_file_reaches_writeStage w tags cfg y input lyr hopen ha ht hskip hfetch hpass]
    exact writeStage_dryRun w cfg y input 1 0 hd
  · intro w tags cfg lyr s rest hd hopen ha ht hp hfetch hy
    have hloop : promptLoop (s :: rest) = .ok (.yes, rest, 1) := by
      simp [promptLoop, hy]
    simp [process_file, hopen, ha, ht, hp, hfetch, hloop,
      writeStage_dryRun w cfg false rest 1 1 hd]

/-- Witness for C8: a dry run over a fresh file, once with the prompt off
and once answering `y`. -/
theorem C8_dry_run_no_writes_witness :
    process_file sampleWorld { plainConfig with dryRun := true } false [] =
      .ok (.dry_run, false, [],
        { fetchCalls := 1, promptsShown := 0, sidecarOpens := 0, flacSaves := 0 })
    ∧ process_file sampleWorld { promptConfig with dryRun := true } false ["y"] =
      .ok (.dry_run, false, [],
        { fetchCalls := 1, promptsShown := 1, sidecarOpens := 0, flacSaves := 0 }) :=
  ⟨C8_dry_run_no_writes.2.1 sampleWorld sampleTags { plainConfig with dryRun := true }
      false [] "[00:01.00]La la" rfl rfl rfl rfl (Or.inr (Or.inr ⟨rfl, rfl⟩)) rfl
      (Or.inl rfl),
   C8_dry_run_no_writes.2.2 sampleWorld sampleTags { promptConfig with dryRun := true }
      "[00:01.00]La la" "y" [] rfl rfl rfl rfl rfl rfl (by decide)⟩

/-- C7: answering `a` at a prompt sets the shared yes-to-all flag; with the
flag set, the remainder of the run shows no prompt, reads no stdin, and
keeps the flag set; and each file processed under the set flag produces the
same status it would produce were the user to answer `y`. -/
theorem C7_yes_to_all_suppresses_prompts :
    (∀ w tags cfg lyr s rest out y' rem fx,
      w.flacOpen = some tags → truthy tags.artist = true → truthy tags.title = true →
      cfg.prompt = true → fetch_lyrics w.fetchResult = some lyr → normalize s = "a" →
      process_file w cfg false (s :: rest) = .ok (out, y', rem, fx) → y' = true)
    ∧ (∀ cfg fs input log y' rem fx,
      runFiles cfg fs true input = .ok (log, y', rem, fx) →
      y' = true ∧ rem = input ∧ fx.promptsShown = 0)
    ∧ (∀ w cfg input,
      outcomeOf (process_file w cfg true input) =
        outcomeOf (process_file w cfg false ("y" :: input))) := by
  refine ⟨?_, ?_, ?_⟩
  · intro w tags cfg lyr s rest out y' rem fx hopen ha ht hp hfetch hs hproc
    have hloop : promptLoop (s :: rest) = .ok (.all, rest, 1) := by
      simp [promptLoop, hs]
    have hred : process_file w cfg false (s :: rest) = writeStage w cfg true rest 1 1 := by
      simp [process_file, hopen, ha, ht, hp, hfetch, hloop]
    rw [hred] at hproc
    exact (writeStage_preserves _ _ _ _ _ _ _ _ _ _ hproc).1
  · intro cfg fs input log y' rem fx h
    exact runFiles_yes_all cfg fs input log y' rem fx h
  · intro w cfg input
    cases hfo : w.flacOpen with
    | none => simp [process_file, hfo, outcomeOf, Except.map]
    | some tags =>
      by_cases h1 : (!truthy tags.artist || !truthy tags.title) = true
      · simp [process_file, hfo, h1, outcomeOf, Except.map]
      · cases hfl : fetch_lyrics w.fetchResult with
        | none =>
          cases h2 : ((w.hasLrc || hasEmbeddedLyrics tags) && !cfg.force && !cfg.prompt) with
          | true => simp [process_file, hfo, h1, h2, outcomeOf, Except.map]
          | false => simp [process_file, hfo, h1, h2, hfl, outcomeOf, Except.map]
        | some lyr =>
          cases hcp : cfg.prompt with
          | true =>
            have hyl : promptLoop ("y" :: input) = .ok (.yes, input, 1) := by
              simp [promptLoop, show normalize "y" = "y" from by decide]
            have hskip : ((w.hasLrc || hasEmbeddedLyrics tags) && !cfg.force && !cfg.prompt)
                = false := by
              simp [hcp]
            have hredL : process_file w cfg true input = writeStage w cfg true input 1 0 := by
              simp [process_file, hfo, h1, hskip, hfl]
            have hredR : process_file w cfg false ("y" :: input) =
                writeStage w cfg false input 1 1 := by
              simp [process_file, hfo, h1, hskip, hfl, hcp, hyl]
            rw [hredL, hredR]
            exact writeStage_outcome_eq w cfg true false input input 1 1 0 1
          | false =>
            cases h2 : ((w.hasLrc || hasEmbeddedLyrics tags) && !cfg.force && !cfg.prompt) with
            | true => simp [process_file, hfo, h1, h2, outcomeOf, Except.map]
            | false =>
              have h2' : ((w.hasLrc || hasEmbeddedLyrics tags) && !cfg.force) = false := by
                rw [hcp] at h2
                simpa using h2
              have hredL : process_file w cfg true input = writeStage w cfg true input 1 0 := by
                simp [process_file, hfo, h1, h2, hfl]
              have hredR : process_file w cfg false ("y" :: input) =
                  writeStage w cfg false ("y" :: input) 1 0 := by
                simp [process_file, hfo, h1, h2, h2', hfl, hcp]
              rw [hredL, hredR]
              exact writeStage_outcome_eq w cfg true false input ("y" :: input) 1 1 0 0

/-- Witness for C7: answering `a` on a fresh file flips the flag to true;
a one-file tail run under the set flag shows zero prompts. -/
theorem C7_yes_to_all_suppresses_prompts_witness :
    true = true
    ∧ (true = true ∧ ([] : List String) = ([] : List String) ∧
        Effects.promptsShown
          { fetchCalls := 1, promptsShown := 0, sidecarOpens := 1, flacSaves := 1 } = 0) :=
  ⟨C7_yes_to_all_suppresses_prompts.1 sampleWorld sampleTags promptConfig
      "[00:01.00]La la" "a" [] .updated true []
      { fetchCalls := 1, promptsShown := 1, sidecarOpens := 1, flacSaves := 1 }
      rfl rfl rfl rfl rfl (by decide) rfl,
   C7_yes_to_all_suppresses_prompts.2.1 promptConfig [sampleWorld] []
      [("album/song.flac", .updated)] true []
      { fetchCalls := 1, promptsShown := 0, sidecarOpens := 1, flacSaves := 1 } rfl⟩

/-- C10: after `.strip().lower()` the prompt loop accepts exactly the
answers `a`, `y` and `n`: any other answer re-prompts with no other effect
(the eventual result and remaining input are those of the rest of the
stream, with one more prompt shown); each accepted answer returns at once;
the loop returns at all precisely when the input contains an accepted
answer; and on an unbounded stream with no accepted answer it never
returns, for any number of iterations. -/
theorem C10_prompt_loop_exact_answers :
    (∀ s rest, normalize s ≠ "a" → normalize s ≠ "y" → normalize s ≠ "n" →
      (∀ r rem k, promptLoop rest = .ok (r, rem, k) →
        promptLoop (s :: rest) = .ok (r, rem, k + 1))
      ∧ (∀ e, promptLoop rest = .error e → promptLoop (s :: rest) = .error e))
    ∧ (∀ s rest, normalize s = "a" → promptLoop (s :: rest) = .ok (.all, rest, 1))
    ∧ (∀ s rest, normalize s = "y" → promptLoop (s :: rest) = .ok (.yes, rest, 1))
    ∧ (∀ s rest, normalize s = "n" → promptLoop (s :: rest) = .ok (.no, rest, 1))
    ∧ (∀ input : List String, (∃ r, promptLoop input = .ok r) ↔
        (∃ s, s ∈ input ∧ (normalize s = "a" ∨ normalize s = "y" ∨ normalize s = "n")))
    ∧ (∀ f : Nat → String,
        (∀ i, normalize (f i) ≠ "a" ∧ normalize (f i) ≠ "y" ∧ normalize (f i) ≠ "n") →
        ∀ fuel i, promptLoopFuel fuel f i = none) := by
  refine ⟨?_, ?_, ?_, ?_, ?_, ?_⟩
  · intro s rest h1 h2 h3
    constructor
    · intro r rem k hpl
      simp [promptLoop, h1, h2, h3, hpl]
    · intro e hpl
      simp [promptLoop, h1, h2, h3, hpl]
  · intro s rest h
    simp [promptLoop, h]
  · intro s rest h
    simp [promptLoop, h]
  · intro s rest h
    simp [promptLoop, h]
  · intro input
    induction input with
    | nil => simp [promptLoop]
    | cons s rest ih =>
      by_cases hv : normalize s = "a" ∨ normalize s = "y" ∨ normalize s = "n"
      · constructor
        · intro _
          exact ⟨s, List.mem_cons_self s rest, hv⟩
        · intro _
          rcases hv with h | h | h
          · exact ⟨(.all, rest, 1), by simp [promptLoop, h]⟩
          · exact ⟨(.yes, rest, 1), by simp [promptLoop, h]⟩
          · exact ⟨(.no, rest, 1), by simp [promptLoop, h]⟩
      · push_neg at hv
        obtain ⟨h1, h2, h3⟩ := hv
        constructor
        · rintro ⟨r, hr⟩
          cases hpl : promptLoop rest with
          | error e =>
            rw [show promptLoop (s :: rest) = .error e from by
              simp [promptLoop, h1, h2, h3, hpl]] at hr
            cases hr
          | ok trip =>
            obtain ⟨s2, hmem, hval⟩ := ih.mp ⟨trip, hpl⟩
            exact ⟨s2, List.mem_cons_of_mem s hmem, hval⟩
        · rintro ⟨s2, hmem, hval⟩
          rcases List.mem_cons.mp hmem with heq | hmem2
          · subst heq
            rcases hval with h | h | h
            · exact absurd h h1
            · exact absurd h h2
            · exact absurd h h3
          · obtain ⟨trip, hpl⟩ := ih.mpr ⟨s2, hmem2, hval⟩
            obtain ⟨r2, rem2, k2⟩ := trip
            exact ⟨(r2, rem2, k2 + 1), by simp [promptLoop, h1, h2, h3, hpl]⟩
  · intro f hf fuel
    induction fuel with
    | zero => intro i; rfl
    | succ n ih =>
      intro i
      obtain ⟨h1, h2, h3⟩ := hf i
      simp [promptLoopFuel, h1, h2, h3, ih (i + 1)]

/-- Witness for C10: an invalid answer re-prompts and a later `y` is
accepted; a stripped, uppercase `A` is accepted; a stream of invalid
answers makes no progress in five iterations. -/
theorem C10_prompt_loop_exact_answers_witness :
    promptLoop ["oops", "y"] = .ok (.yes, [], 2)
    ∧ promptLoop [" A "] = .ok (.all, [], 1)
    ∧ promptLoopFuel 5 (fun _ => "zzz") 0 = none :=
  ⟨(C10_prompt_loop_exact_answers.1 "oops" ["y"] (by decide) (by decide) (by decide)).1
      .yes [] 1 (C10_prompt_loop_exact_answers.2.2.1 "y" [] (by decide)),
   C10_prompt_loop_exact_answers.2.1 " A " [] (by decide),
   C10_prompt_loop_exact_answers.2.2.2.2.2 (fun _ => "zzz")
     (fun _ => ⟨(by decide : normalize "zzz" ≠ "a"), (by decide : normalize "zzz" ≠ "y"),
       (by decide : normalize "zzz" ≠ "n")⟩) 5 0⟩

end FlacLyrics
